import Mathlib

/-!
Shallow embedding of the analytics engine of
`WEBSITE/analytics/batch_analytics.py` (batch analytics for the Aadhaar
intelligence platform), together with theorems settling the specification
claims about it.

Modelling conventions:
* Python floats are modelled exactly: as rationals (`ℚ`) for the purely
  rational computations (saturation index, univariate statistics, linear
  forecast, top-correlation ranking) and as reals (`ℝ`) where a square root
  occurs (volatility index, Pearson correlation, correlation interpretation).
* Python `round(x, 1)` (round half to even) is modelled exactly on the real
  value by `round1` below.
* `NaN` results (the pandas sample standard deviation of a single
  observation, an undefined Pearson correlation) are modelled by `Option`,
  `none` standing for `NaN`.
* `pd.to_numeric(col, errors='coerce').dropna()` is modelled by feeding a
  column in as `List (Option ℚ)` (a parsed number per row, or `none` for an
  unparseable entry) and keeping the `some` entries.
* Python stable sorts (`list.sort(key=..., reverse=True)`, the sort inside a
  pandas quantile) are modelled by `List.insertionSort`, which is stable and
  places earlier elements first on ties, exactly as Python's sort does.
-/

namespace BatchAnalytics

/-- Round half to even on the exact value, the tie-breaking rule of Python's
built-in `round`: the nearest integer, ties going to the even one. -/
def roundHalfEven {α : Type} [LinearOrderedField α] [FloorRing α] (x : α) : ℤ :=
  if x - (Int.floor x : α) < 1/2 then Int.floor x
  else if 1/2 < x - (Int.floor x : α) then Int.floor x + 1
  else if 2 ∣ Int.floor x then Int.floor x else Int.floor x + 1

/-- Python's `round(x, 1)`: round to one decimal digit, half to even. -/
def round1 {α : Type} [LinearOrderedField α] [FloorRing α] (x : α) : α :=
  (roundHalfEven (10 * x) : α) / 10

theorem floor_le_roundHalfEven {α : Type} [LinearOrderedField α] [FloorRing α]
    (x : α) : Int.floor x ≤ roundHalfEven x := by
  unfold roundHalfEven
  split_ifs <;> omega

theorem roundHalfEven_le_floor_add_one {α : Type} [LinearOrderedField α] [FloorRing α]
    (x : α) : roundHalfEven x ≤ Int.floor x + 1 := by
  unfold roundHalfEven
  split_ifs <;> omega

theorem roundHalfEven_intCast {α : Type} [LinearOrderedField α] [FloorRing α]
    (z : ℤ) : roundHalfEven (z : α) = z := by
  unfold roundHalfEven
  rw [Int.floor_intCast, sub_self]
  norm_num

theorem roundHalfEven_mono {α : Type} [LinearOrderedField α] [FloorRing α]
    {x y : α} (h : x ≤ y) : roundHalfEven x ≤ roundHalfEven y := by
  rcases lt_or_le (Int.floor x) (Int.floor y) with hf | hf
  · have h1 := roundHalfEven_le_floor_add_one x
    have h2 := floor_le_roundHalfEven y
    omega
  · have hfe : Int.floor x = Int.floor y := le_antisymm (Int.floor_mono h) hf
    have hd : x - (Int.floor y : α) ≤ y - (Int.floor y : α) := sub_le_sub_right h _
    unfold roundHalfEven
    rw [hfe]
    split_ifs <;> first | omega | linarith

theorem round1_mono {α : Type} [LinearOrderedField α] [FloorRing α]
    {x y : α} (h : x ≤ y) : round1 x ≤ round1 y := by
  unfold round1
  have h1 : roundHalfEven (10 * x) ≤ roundHalfEven (10 * y) :=
    roundHalfEven_mono (by linarith)
  have h2 : ((roundHalfEven (10 * x) : ℤ) : α) ≤ ((roundHalfEven (10 * y) : ℤ) : α) := by
    exact_mod_cast h1
  linarith

theorem round1_nonneg {α : Type} [LinearOrderedField α] [FloorRing α]
    {x : α} (h : 0 ≤ x) : 0 ≤ round1 x := by
  unfold round1
  have h0 : (0 : ℤ) ≤ Int.floor (10 * x) := Int.floor_nonneg.mpr (by linarith)
  have h1 : (0 : ℤ) ≤ roundHalfEven (10 * x) := le_trans h0 (floor_le_roundHalfEven _)
  have h2 : (0 : α) ≤ (roundHalfEven (10 * x) : α) := by exact_mod_cast h1
  linarith

theorem round1_le_intCast {α : Type} [LinearOrderedField α] [FloorRing α]
    {x : α} {c : ℤ} (h : x ≤ (c : α)) : round1 x ≤ (c : α) := by
  rcases eq_or_lt_of_le h with heq | hlt
  · subst heq
    unfold round1
    have h1 : (10 : α) * (c : α) = ((10 * c : ℤ) : α) := by push_cast; ring
    rw [h1, roundHalfEven_intCast]
    push_cast
    ring_nf
    linarith
  · unfold round1
    have h1 : Int.floor (10 * x) < 10 * c := by
      rw [Int.floor_lt]
      push_cast
      linarith
    have h2 : roundHalfEven (10 * x) ≤ 10 * c :=
      le_trans (roundHalfEven_le_floor_add_one _) (by omega)
    have h3 : ((roundHalfEven (10 * x) : ℤ) : α) ≤ ((10 * c : ℤ) : α) := by exact_mod_cast h2
    push_cast at h3
    linarith

/-! ### Saturation index (`calculate_saturation_index`, source lines 319-335)

`CONFIG['population']` and `CONFIG['thresholds']` of the source. The total
activity count handed to the indicator is a count of records, hence `ℕ`. -/

/-- `CONFIG['population']`: state name to population in millions. -/
def populationTable : List (String × ℚ) :=
  [("Uttar Pradesh", 240), ("Maharashtra", 130), ("Bihar", 128),
   ("West Bengal", 100), ("Madhya Pradesh", 87), ("Tamil Nadu", 80),
   ("Rajasthan", 82), ("Karnataka", 70), ("Gujarat", 72),
   ("Andhra Pradesh", 53), ("Telangana", 40), ("Kerala", 36),
   ("Jharkhand", 40), ("Odisha", 47), ("Punjab", 31)]

/-- `CONFIG['population'].get(state, 50)`. -/
def popMillions (state : String) : ℚ := (populationTable.lookup state).getD 50

/-- `CONFIG['thresholds']['saturation_critical']`. -/
def saturation_critical : ℚ := 40

/-- `CONFIG['thresholds']['saturation_warning']`. -/
def saturation_warning : ℚ := 60

structure SaturationResult where
  value : ℚ
  status : String
  population_millions : ℚ
deriving DecidableEq

/-- The local variable `index` of `calculate_saturation_index`:
`min((total_enrollments / population) * 100, 120)` with
`population = CONFIG['population'].get(state, 50) * 1_000_000`. -/
def saturationIndexRaw (total_enrollments : ℕ) (state : String) : ℚ :=
  min ((total_enrollments : ℚ) / (popMillions state * 1000000) * 100) 120

/-- `calculate_saturation_index(total_enrollments, state)`. -/
def calculate_saturation_index (total_enrollments : ℕ) (state : String) :
    SaturationResult :=
  { value := round1 (saturationIndexRaw total_enrollments state)
    status :=
      if saturationIndexRaw total_enrollments state < saturation_critical then "critical"
      else if saturationIndexRaw total_enrollments state < saturation_warning then "warning"
      else "healthy"
    population_millions := popMillions state }

theorem pos_of_lookup {l : List (String × ℚ)} (hl : ∀ p ∈ l, 0 < p.2)
    {s : String} {q : ℚ} (h : l.lookup s = some q) : 0 < q := by
  induction l with
  | nil => simp [List.lookup] at h
  | cons a t ih =>
    obtain ⟨k, v⟩ := a
    rw [List.lookup] at h
    split at h
    · cases h
      exact hl (k, q) (by simp)
    · exact ih (fun p hp => hl p (List.mem_cons_of_mem _ hp)) h

theorem popMillions_pos (s : String) : 0 < popMillions s := by
  unfold popMillions
  cases h : populationTable.lookup s with
  | none => norm_num
  | some q =>
    simp only [Option.getD_some]
    exact pos_of_lookup (by decide) h

theorem saturation_status_eq (t : ℕ) (s : String) :
    (calculate_saturation_index t s).status =
      if saturationIndexRaw t s < 40 then "critical"
      else if saturationIndexRaw t s < 60 then "warning"
      else "healthy" := rfl

/-- C1. The saturation index is `min(total / (population(state) * 1e6) * 100, 120)`
(population looked up with default 50), the returned value is that index
rounded to one decimal, the status bands on the index are
`< 40 → critical`, `40 ≤ _ < 60 → warning`, `60 ≤ _ → healthy`, and in
particular total activity 10,000,000 for "Kerala" (population 36 million)
yields value 27.8 and status "critical". -/
theorem saturation_index_spec :
    ∀ (t : ℕ) (s : String),
      (calculate_saturation_index t s).value
          = round1 (min ((t : ℚ) / (popMillions s * 1000000) * 100) 120) ∧
      ((calculate_saturation_index t s).status = "critical"
          ↔ min ((t : ℚ) / (popMillions s * 1000000) * 100) 120 < 40) ∧
      ((calculate_saturation_index t s).status = "warning"
          ↔ 40 ≤ min ((t : ℚ) / (popMillions s * 1000000) * 100) 120
            ∧ min ((t : ℚ) / (popMillions s * 1000000) * 100) 120 < 60) ∧
      ((calculate_saturation_index t s).status = "healthy"
          ↔ 60 ≤ min ((t : ℚ) / (popMillions s * 1000000) * 100) 120) ∧
      (calculate_saturation_index t s).population_millions = popMillions s ∧
      calculate_saturation_index 10000000 "Kerala"
          = { value := 139/5, status := "critical", population_millions := 36 } := by
  have hker : popMillions "Kerala" = 36 := by
    simp [popMillions, populationTable, List.lookup]
  have hraw : saturationIndexRaw 10000000 "Kerala" = 250/9 := by
    unfold saturationIndexRaw
    rw [hker]
    norm_num [min_def]
  have hkv : round1 ((250 : ℚ)/9) = 139/5 := by
    unfold round1 roundHalfEven
    have hf : Int.floor ((10 : ℚ) * (250/9)) = 277 := by norm_num
    rw [hf]
    norm_num
  intro t s
  refine ⟨rfl, ?_, ?_, ?_, rfl, ?_⟩
  · rw [saturation_status_eq]
    show _ ↔ saturationIndexRaw t s < 40
    split_ifs with h1 h2
    · exact ⟨fun _ => h1, fun _ => rfl⟩
    · exact ⟨fun hc => absurd hc (by decide), fun hv => absurd hv h1⟩
    · exact ⟨fun hc => absurd hc (by decide), fun hv => absurd hv h1⟩
  · rw [saturation_status_eq]
    show _ ↔ 40 ≤ saturationIndexRaw t s ∧ saturationIndexRaw t s < 60
    split_ifs with h1 h2
    · exact ⟨fun hc => absurd hc (by decide), fun hv => absurd h1 (not_lt.mpr hv.1)⟩
    · exact ⟨fun _ => ⟨not_lt.mp h1, h2⟩, fun _ => rfl⟩
    · exact ⟨fun hc => absurd hc (by decide), fun hv => absurd hv.2 h2⟩
  · rw [saturation_status_eq]
    show _ ↔ 60 ≤ saturationIndexRaw t s
    split_ifs with h1 h2
    · exact ⟨fun hc => absurd hc (by decide), fun hv => absurd h1 (not_lt.mpr (by linarith))⟩
    · exact ⟨fun hc => absurd hc (by decide), fun hv => absurd h2 (not_lt.mpr hv)⟩
    · exact ⟨fun _ => not_lt.mp h2, fun _ => rfl⟩
  · unfold calculate_saturation_index
    simp only [SaturationResult.mk.injEq]
    refine ⟨?_, ?_, hker⟩
    · rw [hraw, hkv]
    · rw [hraw]
      unfold saturation_critical
      rw [if_pos (by norm_num : (250 : ℚ)/9 < 40)]

/-- C8. For a fixed state the saturation value is monotone in the total
activity count, and it always lies in `[0, 120]`. -/
theorem saturation_monotone_bounded :
    (∀ s : String,
        Monotone fun t : ℕ => (calculate_saturation_index t s).value) ∧
    ∀ (t : ℕ) (s : String),
      0 ≤ (calculate_saturation_index t s).value ∧
      (calculate_saturation_index t s).value ≤ 120 := by
  constructor
  · intro s a b hab
    simp only [calculate_saturation_index]
    apply round1_mono
    unfold saturationIndexRaw
    apply min_le_min _ le_rfl
    have hp : (0 : ℚ) < popMillions s * 1000000 :=
      mul_pos (popMillions_pos s) (by norm_num)
    have hc : (a : ℚ) ≤ (b : ℚ) := Nat.cast_le.mpr hab
    exact mul_le_mul_of_nonneg_right
      ((div_le_div_iff_of_pos_right hp).mpr hc) (by norm_num)
  · intro t s
    simp only [calculate_saturation_index]
    have hp : (0 : ℚ) < popMillions s * 1000000 :=
      mul_pos (popMillions_pos s) (by norm_num)
    constructor
    · apply round1_nonneg
      unfold saturationIndexRaw
      apply le_min _ (by norm_num)
      positivity
    · have h1 : saturationIndexRaw t s ≤ ((120 : ℤ) : ℚ) := by
        unfold saturationIndexRaw
        push_cast
        exact min_le_right _ _
      have := round1_le_intCast h1
      push_cast at this
      exact this

/-- Witness for C8 at concrete inputs. -/
theorem saturation_monotone_bounded_witness :
    (calculate_saturation_index 5 "Punjab").value
        ≤ (calculate_saturation_index 9 "Punjab").value ∧
    0 ≤ (calculate_saturation_index 7 "Atlantis").value ∧
    (calculate_saturation_index 7 "Atlantis").value ≤ 120 :=
  ⟨saturation_monotone_bounded.1 "Punjab" (by norm_num),
   (saturation_monotone_bounded.2 7 "Atlantis").1,
   (saturation_monotone_bounded.2 7 "Atlantis").2⟩

/-! ### Univariate analysis (`univariate_analysis`, source lines 143-165)

The raw column arrives as `List (Option ℚ)`; `cleanSeries` is
`pd.to_numeric(df[column], errors='coerce').dropna()`.  pandas
`series.std()` is `sqrt(Σ(x - mean)² / (n - 1))` (sample, `ddof = 1`) and is
`NaN` for a single observation; the embedding stores the quantity under the
square root in `std_sq` (`none` for the `NaN` case).  Since a standard
deviation is nonnegative and squaring is injective on nonnegatives, two std
values are equal exactly when the `std_sq` values are.  The `skewness` and
`kurtosis` fields of the source also divide by powers of that square root;
no claim depends on their numeric values and they are not carried in the
record.  `series.median()` and `series.quantile(q)` use linear
interpolation on the sorted series, embedded by `quantileLinear`. -/

def cleanSeries (col : List (Option ℚ)) : List ℚ := col.filterMap id

/-- The sorted copy of a series that pandas quantile computation works on. -/
def sortedQ (s : List ℚ) : List ℚ := s.insertionSort (· ≤ ·)

/-- pandas `series.quantile(q)` with the default linear interpolation:
position `q * (n - 1)` in the sorted series, linearly interpolated between
the two neighbouring order statistics. -/
def quantileLinear (s : List ℚ) (q : ℚ) : ℚ :=
  let pos : ℚ := q * ((s.length : ℚ) - 1)
  let i : ℕ := (Int.floor pos).toNat
  let a := (sortedQ s).getD i 0
  let b := (sortedQ s).getD (i + 1) a
  a + (pos - (i : ℚ)) * (b - a)

structure UnivariateResult where
  count : ℕ
  mean : ℚ
  std_sq : Option ℚ
  min : ℚ
  max : ℚ
  median : ℚ
  q25 : ℚ
  q75 : ℚ
deriving DecidableEq

/-- `univariate_analysis(df, column)` on the already-extracted raw column;
`none` is the `{'error': 'No valid numeric data'}` result for an empty
cleaned series.  (The `column not in df.columns` error path concerns the
table wrapper, not the statistics, and is outside this embedding.) -/
def univariate_analysis (col : List (Option ℚ)) : Option UnivariateResult :=
  if cleanSeries col = [] then none
  else some
    { count := (cleanSeries col).length
      mean := (cleanSeries col).sum / ((cleanSeries col).length : ℚ)
      std_sq :=
        if (cleanSeries col).length < 2 then none
        else some
          (((cleanSeries col).map
              (fun v => (v - (cleanSeries col).sum / ((cleanSeries col).length : ℚ))^2)).sum
            / (((cleanSeries col).length : ℚ) - 1))
      min := (cleanSeries col).foldl min ((cleanSeries col).headD 0)
      max := (cleanSeries col).foldl max ((cleanSeries col).headD 0)
      median := quantileLinear (cleanSeries col) (1/2)
      q25 := quantileLinear (cleanSeries col) (1/4)
      q75 := quantileLinear (cleanSeries col) (3/4) }

/-- The claim's "population-adjusted (population, not sample) standard
deviation", squared: `Σ(x - mean)² / n`. -/
def popVarQ (s : List ℚ) : ℚ :=
  (s.map (fun v => (v - s.sum / (s.length : ℚ))^2)).sum / (s.length : ℚ)

theorem foldl_min_le_init (l : List ℚ) (a : ℚ) : l.foldl min a ≤ a := by
  induction l generalizing a with
  | nil => simp
  | cons b t ih =>
    simp only [List.foldl_cons]
    exact le_trans (ih (min a b)) (min_le_left a b)

theorem foldl_min_le_mem {l : List ℚ} {y : ℚ} (hy : y ∈ l) (a : ℚ) :
    l.foldl min a ≤ y := by
  induction l generalizing a with
  | nil => cases hy
  | cons b t ih =>
    simp only [List.foldl_cons]
    rcases List.mem_cons.mp hy with rfl | hyt
    · exact le_trans (foldl_min_le_init t (min a y)) (min_le_right a y)
    · exact ih hyt (min a b)

theorem foldl_min_mem (l : List ℚ) (a : ℚ) :
    l.foldl min a = a ∨ l.foldl min a ∈ l := by
  induction l generalizing a with
  | nil => left; rfl
  | cons b t ih =>
    simp only [List.foldl_cons]
    rcases ih (min a b) with h | h
    · rcases min_choice a b with hm | hm
      · left; rw [h, hm]
      · right; rw [h, hm]; exact List.mem_cons_self b t
    · right; exact List.mem_cons_of_mem b h

theorem init_le_foldl_max (l : List ℚ) (a : ℚ) : a ≤ l.foldl max a := by
  induction l generalizing a with
  | nil => simp
  | cons b t ih =>
    simp only [List.foldl_cons]
    exact le_trans (le_max_left a b) (ih (max a b))

theorem mem_le_foldl_max {l : List ℚ} {y : ℚ} (hy : y ∈ l) (a : ℚ) :
    y ≤ l.foldl max a := by
  induction l generalizing a with
  | nil => cases hy
  | cons b t ih =>
    simp only [List.foldl_cons]
    rcases List.mem_cons.mp hy with rfl | hyt
    · exact le_trans (le_max_right a y) (init_le_foldl_max t (max a y))
    · exact ih hyt (max a b)

theorem foldl_max_mem (l : List ℚ) (a : ℚ) :
    l.foldl max a = a ∨ l.foldl max a ∈ l := by
  induction l generalizing a with
  | nil => left; rfl
  | cons b t ih =>
    simp only [List.foldl_cons]
    rcases ih (max a b) with h | h
    · rcases max_choice a b with hm | hm
      · left; rw [h, hm]
      · right; rw [h, hm]; exact List.mem_cons_self b t
    · right; exact List.mem_cons_of_mem b h

/-- C2 counterexample. On the cleaned series `[0, 2]` the code's `std` field
is `√2` (its square, `std_sq`, is `2`: the sample variance, `ddof = 1`),
while the population standard deviation of the claim is `√1 = 1`; the two
squares `2` and `1` differ, so the std values differ. -/
theorem univariate_population_std_counterexample :
    (univariate_analysis [some (0 : ℚ), some 2]).map (fun u => u.std_sq)
        = some (some 2) ∧
    popVarQ (cleanSeries [some (0 : ℚ), some 2]) = 1 ∧ (2 : ℚ) ≠ 1 := by
  have hclean : cleanSeries [some (0 : ℚ), some 2] = [0, 2] := by
    simp [cleanSeries]
  refine ⟨?_, ?_, by norm_num⟩
  · unfold univariate_analysis
    rw [hclean, if_neg (by simp), Option.map_some']
    norm_num [List.map_cons, List.map_nil, List.sum_cons, List.sum_nil]
  · rw [hclean]
    unfold popVarQ
    norm_num [List.map_cons, List.map_nil, List.sum_cons, List.sum_nil]

/-- C2 amended. For every raw column whose cleaned series is non-empty the
summarizer returns count, mean, min, max, median and quartiles computed over
the cleaned series, but its `std` field is the **sample** (`ddof = 1`)
standard deviation — the square of which is `n/(n-1)` times the population
variance — and is undefined (`NaN`) when the count is 1, not the population
standard deviation claimed. -/
theorem univariate_sample_std :
    ∀ col : List (Option ℚ), cleanSeries col ≠ [] →
      ∃ u, univariate_analysis col = some u ∧
        u.count = (cleanSeries col).length ∧
        u.mean = (cleanSeries col).sum / ((cleanSeries col).length : ℚ) ∧
        u.min ∈ cleanSeries col ∧ (∀ y ∈ cleanSeries col, u.min ≤ y) ∧
        u.max ∈ cleanSeries col ∧ (∀ y ∈ cleanSeries col, y ≤ u.max) ∧
        u.median = quantileLinear (cleanSeries col) (1/2) ∧
        u.q25 = quantileLinear (cleanSeries col) (1/4) ∧
        u.q75 = quantileLinear (cleanSeries col) (3/4) ∧
        (u.count = 1 → u.std_sq = none) ∧
        (2 ≤ u.count →
          u.std_sq
            = some (((u.count : ℚ) / ((u.count : ℚ) - 1))
                * popVarQ (cleanSeries col))) := by
  intro col hne
  refine ⟨_, by unfold univariate_analysis; rw [if_neg hne], rfl, rfl,
    ?_, ?_, ?_, ?_, rfl, rfl, rfl, ?_, ?_⟩
  · rcases foldl_min_mem (cleanSeries col) ((cleanSeries col).headD 0) with h | h
    · rw [h]
      obtain ⟨x, t, hxt⟩ := List.exists_cons_of_ne_nil hne
      rw [hxt]
      simp
    · exact h
  · exact fun y hy => foldl_min_le_mem hy _
  · rcases foldl_max_mem (cleanSeries col) ((cleanSeries col).headD 0) with h | h
    · rw [h]
      obtain ⟨x, t, hxt⟩ := List.exists_cons_of_ne_nil hne
      rw [hxt]
      simp
    · exact h
  · exact fun y hy => mem_le_foldl_max hy _
  · intro h1
    have h1a : (cleanSeries col).length = 1 := h1
    show (if (cleanSeries col).length < 2 then none
          else some
            ((((cleanSeries col).map
                (fun v => (v - (cleanSeries col).sum / ((cleanSeries col).length : ℚ))^2)).sum)
              / (((cleanSeries col).length : ℚ) - 1)))
        = none
    rw [if_pos (by omega)]
  · intro h2
    have h2a : 2 ≤ (cleanSeries col).length := h2
    show (if (cleanSeries col).length < 2 then none
          else some
            ((((cleanSeries col).map
                (fun v => (v - (cleanSeries col).sum / ((cleanSeries col).length : ℚ))^2)).sum)
              / (((cleanSeries col).length : ℚ) - 1)))
        = some ((((cleanSeries col).length : ℚ) / (((cleanSeries col).length : ℚ) - 1))
            * popVarQ (cleanSeries col))
    rw [if_neg (by omega)]
    unfold popVarQ
    congr 1
    have hn : (2 : ℚ) ≤ ((cleanSeries col).length : ℚ) := by exact_mod_cast h2a
    have h0 : ((cleanSeries col).length : ℚ) ≠ 0 := by linarith
    have h1 : ((cleanSeries col).length : ℚ) - 1 ≠ 0 := by
      intro hc
      rw [sub_eq_zero] at hc
      rw [hc] at hn
      norm_num at hn
    field_simp
    ring

/-- Witness for C2 (amended) on the spec's scenario series `[10,20,30,40]`:
mean 25, min 10, max 40, and sample variance `(4/3) · 125 = 500/3`. -/
theorem univariate_sample_std_witness :
    ∃ u, univariate_analysis [some (10 : ℚ), some 20, some 30, some 40] = some u ∧
      u.mean = 25 ∧ u.min = 10 ∧ u.max = 40 ∧ u.std_sq = some (500/3) := by
  have hclean : cleanSeries [some (10 : ℚ), some 20, some 30, some 40]
      = [10, 20, 30, 40] := by simp [cleanSeries]
  obtain ⟨u, hu, hcount, hmean, hminmem, hminle, hmaxmem, hmaxle, hmed, h25, h75,
    hstd1, hstd2⟩ :=
    univariate_sample_std [some (10 : ℚ), some 20, some 30, some 40]
      (by rw [hclean]; simp)
  rw [hclean] at hcount hmean hminmem hminle hmaxmem hmaxle hstd2
  refine ⟨u, hu, ?_, ?_, ?_, ?_⟩
  · rw [hmean]
    norm_num [List.sum_cons]
  · have h1 : u.min ≤ 10 := hminle 10 (by simp)
    have h2 : 10 ≤ u.min := by
      simp only [List.mem_cons, List.not_mem_nil, or_false] at hminmem
      rcases hminmem with h | h | h | h <;> rw [h] <;> norm_num
    linarith
  · have h1 : 40 ≤ u.max := hmaxle 40 (by simp)
    have h2 : u.max ≤ 40 := by
      simp only [List.mem_cons, List.not_mem_nil, or_false] at hmaxmem
      rcases hmaxmem with h | h | h | h <;> rw [h] <;> norm_num
    linarith
  · simp only [List.length_cons, List.length_nil] at hcount
    rw [hstd2 (by omega), hcount]
    unfold popVarQ
    norm_num [List.map_cons, List.map_nil, List.sum_cons, List.sum_nil]

/-! ### Volatility index (`calculate_volatility_index`, source lines 338-362)

`np.mean` and `np.std` (the numpy default `ddof = 0`, i.e. the population
standard deviation) on the list of daily totals; the coefficient of
variation `cv = (std / mean) * 100`; the returned value is `round(cv, 1)`.
The square root forces the embedding into `ℝ`. -/

/-- `np.mean(daily_values)`. -/
noncomputable def volMean (xs : List ℝ) : ℝ := xs.sum / (xs.length : ℝ)

/-- `np.std(daily_values)`: the population (`ddof = 0`) standard deviation. -/
noncomputable def volStd (xs : List ℝ) : ℝ :=
  Real.sqrt ((xs.map (fun x => (x - volMean xs)^2)).sum / (xs.length : ℝ))

/-- The local variable `cv = (std / mean) * 100`; this is also the claim's
"coefficient of variation `(population_std / mean) * 100`". -/
noncomputable def coefficientOfVariation (xs : List ℝ) : ℝ :=
  volStd xs / volMean xs * 100

/-- `CONFIG['thresholds']['volatility_high']`. -/
def volatility_high : ℝ := 150

structure VolatilityResult where
  value : ℝ
  status : String

/-- `calculate_volatility_index(daily_values)`. -/
noncomputable def calculate_volatility_index (daily_values : List ℝ) : VolatilityResult :=
  if daily_values.length < 2 then { value := 0, status := "insufficient_data" }
  else if volMean daily_values = 0 then { value := 0, status := "no_activity" }
  else
    { value := round1 (coefficientOfVariation daily_values)
      status :=
        if coefficientOfVariation daily_values < 50 then "stable"
        else if coefficientOfVariation daily_values < 100 then "moderate"
        else if coefficientOfVariation daily_values < volatility_high then "high"
        else "critical" }

theorem round1_zero {α : Type} [LinearOrderedField α] [FloorRing α] :
    round1 (0 : α) = 0 := by
  unfold round1
  rw [show (10 : α) * 0 = ((0 : ℤ) : α) by norm_num, roundHalfEven_intCast]
  norm_num

/-- C3 counterexample. On the two-day series `[5013, 4987]` the coefficient
of variation is exactly `0.26` (mean `5000`, population std `13`), but the
returned value is `round(0.26, 1) = 0.3`: the code does not return the
coefficient of variation itself, as the claim states, but its rounding to
one decimal place. -/
theorem volatility_value_rounded_counterexample :
    (calculate_volatility_index [(5013 : ℝ), 4987]).value
        ≠ coefficientOfVariation [(5013 : ℝ), 4987] ∧
    (calculate_volatility_index [(5013 : ℝ), 4987]).value = 3/10 ∧
    coefficientOfVariation [(5013 : ℝ), 4987] = 13/50 := by
  have hm : volMean [(5013 : ℝ), 4987] = 5000 := by
    unfold volMean
    norm_num [List.sum_cons, List.sum_nil]
  have hs : volStd [(5013 : ℝ), 4987] = 13 := by
    unfold volStd
    rw [hm]
    have h169 : (((5013 : ℝ) - 5000)^2 + (((4987 : ℝ) - 5000)^2 + 0))
        / (([(5013 : ℝ), 4987].length : ℕ) : ℝ) = 169 := by
      norm_num [List.length_cons, List.length_nil]
    simp only [List.map_cons, List.map_nil, List.sum_cons, List.sum_nil]
    rw [h169, show (169 : ℝ) = 13^2 by norm_num]
    exact Real.sqrt_sq (by norm_num)
  have hcv : coefficientOfVariation [(5013 : ℝ), 4987] = 13/50 := by
    unfold coefficientOfVariation
    rw [hs, hm]
    norm_num
  have hval : (calculate_volatility_index [(5013 : ℝ), 4987]).value = 3/10 := by
    unfold calculate_volatility_index
    rw [if_neg (by norm_num), if_neg (by rw [hm]; norm_num)]
    show round1 (coefficientOfVariation [(5013 : ℝ), 4987]) = 3/10
    rw [hcv]
    unfold round1 roundHalfEven
    have hf : Int.floor ((10 : ℝ) * (13/50)) = 2 := by norm_num
    rw [hf]
    norm_num
  exact ⟨by rw [hval, hcv]; norm_num, hval, hcv⟩

/-- C3 amended. With fewer than 2 observations the volatility index is
`(0, insufficient_data)`; with mean exactly 0 it is `(0, no_activity)`;
otherwise the returned value is the coefficient of variation
`(population_std / mean) * 100` **rounded to one decimal place**, and the
status — computed from the unrounded coefficient — is stable below 50,
moderate below 100, high below 150 and critical at or above 150. -/
theorem volatility_index_spec :
    ∀ xs : List ℝ,
      (xs.length < 2 →
        calculate_volatility_index xs = { value := 0, status := "insufficient_data" }) ∧
      (2 ≤ xs.length → volMean xs = 0 →
        calculate_volatility_index xs = { value := 0, status := "no_activity" }) ∧
      (2 ≤ xs.length → volMean xs ≠ 0 →
        (calculate_volatility_index xs).value = round1 (coefficientOfVariation xs) ∧
        ((calculate_volatility_index xs).status = "stable"
            ↔ coefficientOfVariation xs < 50) ∧
        ((calculate_volatility_index xs).status = "moderate"
            ↔ 50 ≤ coefficientOfVariation xs ∧ coefficientOfVariation xs < 100) ∧
        ((calculate_volatility_index xs).status = "high"
            ↔ 100 ≤ coefficientOfVariation xs ∧ coefficientOfVariation xs < 150) ∧
        ((calculate_volatility_index xs).status = "critical"
            ↔ 150 ≤ coefficientOfVariation xs)) := by
  intro xs
  refine ⟨?_, ?_, ?_⟩
  · intro h
    unfold calculate_volatility_index
    rw [if_pos h]
  · intro h2 hm
    unfold calculate_volatility_index
    rw [if_neg (by omega), if_pos hm]
  · intro h2 hm
    unfold calculate_volatility_index
    rw [if_neg (by omega), if_neg hm]
    refine ⟨rfl, ?_, ?_, ?_, ?_⟩
    · show (if coefficientOfVariation xs < 50 then "stable"
            else if coefficientOfVariation xs < 100 then "moderate"
            else if coefficientOfVariation xs < 150 then "high"
            else "critical") = "stable" ↔ coefficientOfVariation xs < 50
      split_ifs with h1 h2 h3
      · exact ⟨fun _ => h1, fun _ => rfl⟩
      · exact ⟨fun hc => absurd hc (by decide), fun hv => absurd hv h1⟩
      · exact ⟨fun hc => absurd hc (by decide), fun hv => absurd hv h1⟩
      · exact ⟨fun hc => absurd hc (by decide), fun hv => absurd hv h1⟩
    · show (if coefficientOfVariation xs < 50 then "stable"
            else if coefficientOfVariation xs < 100 then "moderate"
            else if coefficientOfVariation xs < 150 then "high"
            else "critical") = "moderate"
          ↔ 50 ≤ coefficientOfVariation xs ∧ coefficientOfVariation xs < 100
      split_ifs with h1 h2 h3
      · exact ⟨fun hc => absurd hc (by decide), fun hv => absurd h1 (not_lt.mpr hv.1)⟩
      · exact ⟨fun _ => ⟨not_lt.mp h1, h2⟩, fun _ => rfl⟩
      · exact ⟨fun hc => absurd hc (by decide), fun hv => absurd hv.2 h2⟩
      · exact ⟨fun hc => absurd hc (by decide), fun hv => absurd hv.2 h2⟩
    · show (if coefficientOfVariation xs < 50 then "stable"
            else if coefficientOfVariation xs < 100 then "moderate"
            else if coefficientOfVariation xs < 150 then "high"
            else "critical") = "high"
          ↔ 100 ≤ coefficientOfVariation xs ∧ coefficientOfVariation xs < 150
      split_ifs with h1 h2 h3
      · exact ⟨fun hc => absurd hc (by decide),
          fun hv => absurd h1 (not_lt.mpr (by linarith [hv.1]))⟩
      · exact ⟨fun hc => absurd hc (by decide), fun hv => absurd h2 (not_lt.mpr hv.1)⟩
      · exact ⟨fun _ => ⟨not_lt.mp h2, h3⟩, fun _ => rfl⟩
      · exact ⟨fun hc => absurd hc (by decide), fun hv => absurd hv.2 h3⟩
    · show (if coefficientOfVariation xs < 50 then "stable"
            else if coefficientOfVariation xs < 100 then "moderate"
            else if coefficientOfVariation xs < 150 then "high"
            else "critical") = "critical" ↔ 150 ≤ coefficientOfVariation xs
      split_ifs with h1 h2 h3
      · exact ⟨fun hc => absurd hc (by decide),
          fun hv => absurd h1 (not_lt.mpr (by linarith))⟩
      · exact ⟨fun hc => absurd hc (by decide),
          fun hv => absurd h2 (not_lt.mpr (by linarith))⟩
      · exact ⟨fun hc => absurd hc (by decide), fun hv => absurd h3 (not_lt.mpr hv)⟩
      · exact ⟨fun _ => not_lt.mp h3, fun _ => rfl⟩

/-- Witness for C3 (amended) on `[1, 1]`: mean 1, population std 0,
coefficient of variation 0, rounded value 0, status stable. -/
theorem volatility_index_spec_witness :
    (calculate_volatility_index [(1 : ℝ), 1]).value = 0 ∧
    (calculate_volatility_index [(1 : ℝ), 1]).status = "stable" := by
  have hm : volMean [(1 : ℝ), 1] = 1 := by
    unfold volMean
    norm_num [List.sum_cons, List.sum_nil]
  have hs : volStd [(1 : ℝ), 1] = 0 := by
    unfold volStd
    rw [hm]
    norm_num [List.map_cons, List.map_nil, List.sum_cons, List.sum_nil, Real.sqrt_zero]
  have hcv : coefficientOfVariation [(1 : ℝ), 1] = 0 := by
    unfold coefficientOfVariation
    rw [hs, hm]
    norm_num
  obtain ⟨hval, hstable, _, _, _⟩ :=
    (volatility_index_spec [(1 : ℝ), 1]).2.2 (by norm_num) (by rw [hm]; norm_num)
  constructor
  · rw [hval, hcv, round1_zero]
  · exact hstable.mpr (by rw [hcv]; norm_num)

/-- C9. The volatility value is non-negative on every series of
(non-negative) daily totals, and on a constant series `[c, …, c]` of length
at least 2 with `c ≠ 0` it is exactly 0 with status "stable". -/
theorem volatility_nonneg_constant :
    (∀ xs : List ℝ, (∀ x ∈ xs, 0 ≤ x) →
        0 ≤ (calculate_volatility_index xs).value) ∧
    ∀ c : ℝ, c ≠ 0 → ∀ n : ℕ, 2 ≤ n →
      calculate_volatility_index (List.replicate n c)
        = { value := 0, status := "stable" } := by
  constructor
  · intro xs hx
    by_cases h1 : xs.length < 2
    · unfold calculate_volatility_index
      rw [if_pos h1]
    · by_cases h2 : volMean xs = 0
      · unfold calculate_volatility_index
        rw [if_neg h1, if_pos h2]
      · have hmean : 0 < volMean xs := by
          have hsum : 0 ≤ xs.sum := List.sum_nonneg hx
          have hlen : (0 : ℝ) < (xs.length : ℝ) := by
            have : 0 < xs.length := by omega
            exact_mod_cast this
          rcases lt_or_eq_of_le (div_nonneg hsum (le_of_lt hlen)) with h | h
          · exact h
          · exact absurd h.symm h2
        have hcv : 0 ≤ coefficientOfVariation xs :=
          mul_nonneg (div_nonneg (Real.sqrt_nonneg _) (le_of_lt hmean)) (by norm_num)
        unfold calculate_volatility_index
        rw [if_neg h1, if_neg h2]
        exact round1_nonneg hcv
  · intro c hc n hn
    have hlen : (List.replicate n c).length = n := List.length_replicate n c
    have hn0 : (n : ℝ) ≠ 0 := Nat.cast_ne_zero.mpr (by omega)
    have hmean : volMean (List.replicate n c) = c := by
      unfold volMean
      rw [hlen, List.sum_replicate, nsmul_eq_mul]
      field_simp
    have hstd : volStd (List.replicate n c) = 0 := by
      unfold volStd
      rw [hmean, List.map_replicate]
      simp
    have hcv : coefficientOfVariation (List.replicate n c) = 0 := by
      unfold coefficientOfVariation
      rw [hstd, hmean]
      norm_num
    unfold calculate_volatility_index
    rw [if_neg (by rw [hlen]; omega), if_neg (by rw [hmean]; exact hc)]
    simp only [VolatilityResult.mk.injEq]
    constructor
    · rw [hcv, round1_zero]
    · rw [hcv]
      rw [if_pos (by norm_num : (0 : ℝ) < 50)]

/-- Witness for C9: a concrete non-negative series, and the spec's scenario
`[100, 100, 100, 100]` giving value 0, status stable. -/
theorem volatility_nonneg_constant_witness :
    0 ≤ (calculate_volatility_index [(3 : ℝ)]).value ∧
    calculate_volatility_index [(100 : ℝ), 100, 100, 100]
      = { value := 0, status := "stable" } := by
  constructor
  · exact volatility_nonneg_constant.1 [(3 : ℝ)]
      (by intro x hx; simp at hx; rw [hx]; norm_num)
  · have h := volatility_nonneg_constant.2 100 (by norm_num) 4 (by norm_num)
    have hrep : List.replicate 4 (100 : ℝ) = [100, 100, 100, 100] := rfl
    rw [hrep] at h
    exact h

/-! ### Linear forecast (`simple_linear_forecast`, source lines 398-436)

`X = np.arange(n)` (index positions `0..n-1`), ordinary least squares
against the values, horizon projection `np.arange(n, n+periods)`, R² with a
zero-`ss_tot` guard.  The source's default and only used horizon is
`periods = 30`.  All arithmetic is rational. -/

/-- `X.mean()` for `X = np.arange(n)`. -/
def xMean (n : ℕ) : ℚ := (∑ i ∈ Finset.range n, (i : ℚ)) / (n : ℚ)

/-- `y.mean()`. -/
def yMean (ys : List ℚ) : ℚ := ys.sum / (ys.length : ℚ)

/-- `numerator = ((X - X_mean) * (y - y_mean)).sum()`. -/
def slopeNum (ys : List ℚ) : ℚ :=
  ∑ i ∈ Finset.range ys.length, ((i : ℚ) - xMean ys.length) * (ys.getD i 0 - yMean ys)

/-- `denominator = ((X - X_mean) ** 2).sum()`. -/
def slopeDen (n : ℕ) : ℚ := ∑ i ∈ Finset.range n, ((i : ℚ) - xMean n)^2

/-- `ss_tot = ((y - y_mean) ** 2).sum()`. -/
def ssTot (ys : List ℚ) : ℚ :=
  ∑ i ∈ Finset.range ys.length, (ys.getD i 0 - yMean ys)^2

/-- `ss_res = ((y - y_pred) ** 2).sum()` for the fitted line. -/
def ssRes (ys : List ℚ) (slope intercept : ℚ) : ℚ :=
  ∑ i ∈ Finset.range ys.length, (ys.getD i 0 - (slope * (i : ℚ) + intercept))^2

structure ForecastFit where
  slope : ℚ
  intercept : ℚ
  r_squared : ℚ
  forecast : List ℚ
  trend : String
deriving DecidableEq

inductive ForecastResult where
  | insufficientData
  | cannotCalculateSlope
  | ok (fit : ForecastFit)
deriving DecidableEq

/-- `simple_linear_forecast(time_series, periods)`; `insufficientData` is the
`{'error': 'Insufficient data for forecasting'}` result and
`cannotCalculateSlope` the `{'error': 'Cannot calculate slope'}` result. -/
def simple_linear_forecast (ys : List ℚ) (periods : ℕ) : ForecastResult :=
  if ys.length < 10 then ForecastResult.insufficientData
  else if slopeDen ys.length = 0 then ForecastResult.cannotCalculateSlope
  else
    ForecastResult.ok
      { slope := slopeNum ys / slopeDen ys.length
        intercept := yMean ys - slopeNum ys / slopeDen ys.length * xMean ys.length
        r_squared :=
          if 0 < ssTot ys then
            1 - ssRes ys (slopeNum ys / slopeDen ys.length)
                  (yMean ys - slopeNum ys / slopeDen ys.length * xMean ys.length)
                / ssTot ys
          else 0
        forecast :=
          (List.range periods).map
            (fun k : ℕ => slopeNum ys / slopeDen ys.length * ((ys.length : ℚ) + (k : ℚ))
              + (yMean ys - slopeNum ys / slopeDen ys.length * xMean ys.length))
        trend :=
          if 0 < slopeNum ys / slopeDen ys.length then "increasing"
          else if slopeNum ys / slopeDen ys.length < 0 then "decreasing"
          else "flat" }

theorem xMean_eq {n : ℕ} (hn : 1 ≤ n) : xMean n = ((n : ℚ) - 1) / 2 := by
  unfold xMean
  have h := congrArg (Nat.cast : ℕ → ℚ) (Finset.sum_range_id_mul_two n)
  push_cast [Nat.cast_sub hn] at h
  have hn0 : (n : ℚ) ≠ 0 := Nat.cast_ne_zero.mpr (by omega)
  field_simp
  linarith

theorem slopeDen_pos {n : ℕ} (hn : 2 ≤ n) : 0 < slopeDen n := by
  unfold slopeDen
  have hx : xMean n = ((n : ℚ) - 1) / 2 := xMean_eq (by omega)
  have hne : ((0 : ℚ) - xMean n) ≠ 0 := by
    rw [hx]
    have h2 : (2 : ℚ) ≤ (n : ℚ) := by exact_mod_cast hn
    intro hc
    have hz : ((n : ℚ) - 1) / 2 = 0 := by linarith
    rw [div_eq_zero_iff] at hz
    rcases hz with h | h
    · linarith
    · norm_num at h
  have h0 : (0 : ℚ) < ((0 : ℚ) - xMean n)^2 := by
    rcases (sq_nonneg ((0 : ℚ) - xMean n)).lt_or_eq with h | h
    · exact h
    · exact absurd h.symm (pow_ne_zero 2 hne)
  have hnn : ∀ i ∈ Finset.range n, (0 : ℚ) ≤ ((i : ℚ) - xMean n)^2 :=
    fun i _ => sq_nonneg _
  have hle := Finset.single_le_sum hnn (Finset.mem_range.mpr (by omega : 0 < n))
  rw [Nat.cast_zero] at hle
  exact lt_of_lt_of_le h0 hle

/-- C4. The forecaster signals insufficient data exactly when the series has
fewer than 10 observations (computing no slope or intercept); when it does
fit, the slope is `Σ((x-x̄)(y-ȳ)) / Σ((x-x̄)²)` over index positions
`0..n-1`, the intercept is `ȳ − slope·x̄`, and R² is reported as 0 whenever
the total sum of squares is 0 rather than raising a division-by-zero
fault. -/
theorem forecast_insufficient_and_fit :
    ∀ ys : List ℚ,
      (simple_linear_forecast ys 30 = ForecastResult.insufficientData
          ↔ ys.length < 10) ∧
      (10 ≤ ys.length →
        ∃ f, simple_linear_forecast ys 30 = ForecastResult.ok f ∧
          f.slope
            = (∑ i ∈ Finset.range ys.length,
                ((i : ℚ) - xMean ys.length) * (ys.getD i 0 - yMean ys))
              / (∑ i ∈ Finset.range ys.length, ((i : ℚ) - xMean ys.length)^2) ∧
          f.intercept = yMean ys - f.slope * xMean ys.length ∧
          (ssTot ys = 0 → f.r_squared = 0)) := by
  intro ys
  constructor
  · unfold simple_linear_forecast
    split_ifs with h1 h2
    · exact ⟨fun _ => h1, fun _ => rfl⟩
    · exact ⟨fun hc => (nomatch hc), fun hv => absurd hv h1⟩
    · exact ⟨fun hc => (nomatch hc), fun hv => absurd hv h1⟩
  · intro h10
    have hden : slopeDen ys.length ≠ 0 := ne_of_gt (slopeDen_pos (by omega))
    unfold simple_linear_forecast
    rw [if_neg (by omega), if_neg hden]
    refine ⟨_, rfl, rfl, rfl, ?_⟩
    intro h0
    show (if 0 < ssTot ys then
            1 - ssRes ys (slopeNum ys / slopeDen ys.length)
                  (yMean ys - slopeNum ys / slopeDen ys.length * xMean ys.length)
                / ssTot ys
          else 0) = 0
    rw [if_neg (by rw [h0]; norm_num)]

/-- Witness for C4: on the constant 10-day series the fit happens (no
insufficient-data signal), `ss_tot = 0`, and R² is reported as 0. -/
theorem forecast_insufficient_and_fit_witness :
    ∃ f, simple_linear_forecast [(5 : ℚ), 5, 5, 5, 5, 5, 5, 5, 5, 5] 30
        = ForecastResult.ok f ∧ f.r_squared = 0 := by
  obtain ⟨f, hok, hsl, hint, hr⟩ :=
    (forecast_insufficient_and_fit [(5 : ℚ), 5, 5, 5, 5, 5, 5, 5, 5, 5]).2
      (by decide)
  refine ⟨f, hok, hr ?_⟩
  unfold ssTot yMean
  apply Finset.sum_eq_zero
  intro i hi
  rw [Finset.mem_range] at hi
  have hi10 : i < 10 := hi
  interval_cases i <;>
    norm_num [List.getD_cons_zero, List.getD_cons_succ, List.sum_cons, List.sum_nil]

/-- C5. On every fitted forecast the qualitative trend label is determined
by the slope sign alone — "increasing" iff the slope is positive,
"decreasing" iff negative, "flat" iff exactly zero — and the projected
sequence has exactly 30 values, the fitted line evaluated at positions
`n..n+29`. -/
theorem forecast_trend_and_horizon :
    ∀ (ys : List ℚ) (f : ForecastFit),
      simple_linear_forecast ys 30 = ForecastResult.ok f →
      (f.trend = "increasing" ↔ 0 < f.slope) ∧
      (f.trend = "decreasing" ↔ f.slope < 0) ∧
      (f.trend = "flat" ↔ f.slope = 0) ∧
      f.forecast.length = 30 ∧
      ∀ k, k < 30 →
        f.forecast.getD k 0 = f.slope * ((ys.length : ℚ) + (k : ℚ)) + f.intercept := by
  intro ys f hok
  unfold simple_linear_forecast at hok
  by_cases h1 : ys.length < 10
  · rw [if_pos h1] at hok
    exact nomatch hok
  rw [if_neg h1] at hok
  by_cases h2 : slopeDen ys.length = 0
  · rw [if_pos h2] at hok
    exact nomatch hok
  rw [if_neg h2] at hok
  injection hok with hf
  subst hf
  refine ⟨?_, ?_, ?_, ?_, ?_⟩
  · show (if 0 < slopeNum ys / slopeDen ys.length then "increasing"
          else if slopeNum ys / slopeDen ys.length < 0 then "decreasing"
          else "flat") = "increasing" ↔ 0 < slopeNum ys / slopeDen ys.length
    split_ifs with ht1 ht2
    · exact ⟨fun _ => ht1, fun _ => rfl⟩
    · exact ⟨fun hc => absurd hc (by decide), fun hv => absurd hv ht1⟩
    · exact ⟨fun hc => absurd hc (by decide), fun hv => absurd hv ht1⟩
  · show (if 0 < slopeNum ys / slopeDen ys.length then "increasing"
          else if slopeNum ys / slopeDen ys.length < 0 then "decreasing"
          else "flat") = "decreasing" ↔ slopeNum ys / slopeDen ys.length < 0
    split_ifs with ht1 ht2
    · exact ⟨fun hc => absurd hc (by decide),
        fun hv => absurd ht1 (not_lt.mpr (le_of_lt hv))⟩
    · exact ⟨fun _ => ht2, fun _ => rfl⟩
    · exact ⟨fun hc => absurd hc (by decide), fun hv => absurd hv ht2⟩
  · show (if 0 < slopeNum ys / slopeDen ys.length then "increasing"
          else if slopeNum ys / slopeDen ys.length < 0 then "decreasing"
          else "flat") = "flat" ↔ slopeNum ys / slopeDen ys.length = 0
    split_ifs with ht1 ht2
    · exact ⟨fun hc => absurd hc (by decide),
        fun hv => absurd ht1 (by rw [hv]; exact lt_irrefl 0)⟩
    · exact ⟨fun hc => absurd hc (by decide),
        fun hv => absurd ht2 (by rw [hv]; exact lt_irrefl 0)⟩
    · exact ⟨fun _ => le_antisymm (not_lt.mp ht1) (not_lt.mp ht2),
        fun _ => rfl⟩
  · show ((List.range 30).map
        (fun k : ℕ => slopeNum ys / slopeDen ys.length * ((ys.length : ℚ) + (k : ℚ))
          + (yMean ys - slopeNum ys / slopeDen ys.length * xMean ys.length))).length = 30
    rw [List.length_map, List.length_range]
  · intro k hk
    show ((List.range 30).map
        (fun k : ℕ => slopeNum ys / slopeDen ys.length * ((ys.length : ℚ) + (k : ℚ))
          + (yMean ys - slopeNum ys / slopeDen ys.length * xMean ys.length))).getD k 0
      = slopeNum ys / slopeDen ys.length * ((ys.length : ℚ) + (k : ℚ))
        + (yMean ys - slopeNum ys / slopeDen ys.length * xMean ys.length)
    rw [List.getD_eq_getElem?_getD, List.getElem?_map, List.getElem?_range hk,
      Option.map_some', Option.getD_some]

/-- Witness for C5 on the constant 10-day series: slope 0, trend "flat",
30 projected values. -/
theorem forecast_trend_and_horizon_witness :
    ∃ f, simple_linear_forecast [(5 : ℚ), 5, 5, 5, 5, 5, 5, 5, 5, 5] 30
        = ForecastResult.ok f ∧ f.trend = "flat" ∧ f.forecast.length = 30 := by
  have hden : slopeDen ([(5 : ℚ), 5, 5, 5, 5, 5, 5, 5, 5, 5]).length ≠ 0 :=
    ne_of_gt (slopeDen_pos (by decide))
  obtain ⟨f, hok⟩ :
      ∃ f, simple_linear_forecast [(5 : ℚ), 5, 5, 5, 5, 5, 5, 5, 5, 5] 30
        = ForecastResult.ok f := by
    unfold simple_linear_forecast
    rw [if_neg (by decide), if_neg hden]
    exact ⟨_, rfl⟩
  obtain ⟨hinc, hdec, hflat, hlen30, hvals⟩ :=
    forecast_trend_and_horizon [(5 : ℚ), 5, 5, 5, 5, 5, 5, 5, 5, 5] f hok
  refine ⟨f, hok, ?_, hlen30⟩
  apply hflat.mpr
  have hnum : slopeNum [(5 : ℚ), 5, 5, 5, 5, 5, 5, 5, 5, 5] = 0 := by
    unfold slopeNum yMean
    apply Finset.sum_eq_zero
    intro i hi
    rw [Finset.mem_range] at hi
    have hi10 : i < 10 := hi
    interval_cases i <;>
      norm_num [List.getD_cons_zero, List.getD_cons_succ, List.sum_cons, List.sum_nil]
  have hsl : f.slope
      = slopeNum [(5 : ℚ), 5, 5, 5, 5, 5, 5, 5, 5, 5]
        / slopeDen ([(5 : ℚ), 5, 5, 5, 5, 5, 5, 5, 5, 5]).length := by
    unfold simple_linear_forecast at hok
    rw [if_neg (by decide), if_neg hden] at hok
    injection hok with h
    rw [← h]
  rw [hsl, hnum, zero_div]

/-! ### Bivariate correlation (`bivariate_correlation`, source lines 189-212,
and `interpret_correlation`, source lines 215-234)

The two raw columns arrive as `List (Option ℚ)` of the table's rows (in the
table both columns have the same length; `zip` pairs rows positionally).
`valid_mask = s1.notna() & s2.notna()` keeps exactly the rows where both
entries parsed.  pandas `s1.corr(s2)` is the Pearson coefficient
`Σ(x-x̄)(y-ȳ) / √(Σ(x-x̄)² · Σ(y-ȳ)²)`, `NaN` when either variance is
zero; the source maps a `NaN` correlation to the value `0`.
`interpret_correlation` builds `f"{strength.title()} {direction} correlation"`;
the `.title()`-cased strength strings are embedded literally. -/

/-- The rows kept by `valid_mask`, as value pairs. -/
def joinValid (c1 c2 : List (Option ℚ)) : List (ℚ × ℚ) :=
  (c1.zip c2).filterMap (fun p =>
    match p with
    | (some a, some b) => some (a, b)
    | _ => none)

/-- The claim's positional inner join, restated from the spec's words: keep
position `i` exactly when both columns hold a numeric value there. -/
def specRestrict (c1 c2 : List (Option ℚ)) : List (ℚ × ℚ) :=
  (List.range (min c1.length c2.length)).filterMap (fun i =>
    match c1.getD i none, c2.getD i none with
    | some a, some b => some (a, b)
    | _, _ => none)

def pairsMeanX (s : List (ℚ × ℚ)) : ℚ := (s.map Prod.fst).sum / (s.length : ℚ)

def pairsMeanY (s : List (ℚ × ℚ)) : ℚ := (s.map Prod.snd).sum / (s.length : ℚ)

/-- `Σ(x-x̄)²` of the joined rows. -/
def pairsSxx (s : List (ℚ × ℚ)) : ℚ :=
  (s.map (fun p => (p.1 - pairsMeanX s)^2)).sum

/-- `Σ(y-ȳ)²` of the joined rows. -/
def pairsSyy (s : List (ℚ × ℚ)) : ℚ :=
  (s.map (fun p => (p.2 - pairsMeanY s)^2)).sum

/-- `Σ(x-x̄)(y-ȳ)` of the joined rows. -/
def pairsSxy (s : List (ℚ × ℚ)) : ℚ :=
  (s.map (fun p => (p.1 - pairsMeanX s) * (p.2 - pairsMeanY s))).sum

/-- pandas `s1.corr(s2)`: `none` is the `NaN` of a zero-variance column. -/
noncomputable def pearson (s : List (ℚ × ℚ)) : Option ℝ :=
  if pairsSxx s = 0 ∨ pairsSyy s = 0 then none
  else some (((pairsSxy s : ℚ) : ℝ)
    / Real.sqrt (((pairsSxx s : ℚ) : ℝ) * ((pairsSyy s : ℚ) : ℝ)))

/-- The local `direction = "positive" if r > 0 else "negative"`. -/
noncomputable def correlationDirection (r : ℝ) : String :=
  if 0 < r then "positive" else "negative"

/-- The local `strength`, already `.title()`-cased as the source's f-string
renders it. -/
noncomputable def correlationStrength (r : ℝ) : String :=
  if |r| < 0.1 then "Negligible"
  else if |r| < 0.3 then "Weak"
  else if |r| < 0.5 then "Moderate"
  else if |r| < 0.7 then "Strong"
  else "Very Strong"

/-- `interpret_correlation(r)`; `none` is a `NaN` coefficient. -/
noncomputable def interpret_correlation (r : Option ℝ) : String :=
  match r with
  | none => "No correlation calculated"
  | some r => correlationStrength r ++ " " ++ correlationDirection r ++ " correlation"

structure BivariateOk where
  correlation : ℝ
  sample_size : ℕ
  interpretation : String

inductive BivariateResult where
  | insufficient
  | ok (r : BivariateOk)

/-- `bivariate_correlation(df, col1, col2)` on the two already-extracted raw
columns; `insufficient` is the `{'error': 'Insufficient data'}` result.  (The
`columns not found` error path concerns the table wrapper, not the
statistics.) -/
noncomputable def bivariate_correlation (c1 c2 : List (Option ℚ)) : BivariateResult :=
  if (joinValid c1 c2).length < 2 then BivariateResult.insufficient
  else
    BivariateResult.ok
      { correlation := (pearson (joinValid c1 c2)).getD 0
        sample_size := (joinValid c1 c2).length
        interpretation := interpret_correlation (pearson (joinValid c1 c2)) }

theorem joinValid_eq_specRestrict (c1 c2 : List (Option ℚ)) :
    joinValid c1 c2 = specRestrict c1 c2 := by
  unfold joinValid specRestrict
  induction c1 generalizing c2 with
  | nil => simp
  | cons a t1 ih =>
    cases c2 with
    | nil => simp
    | cons b t2 =>
      rw [List.zip_cons_cons, List.filterMap_cons]
      have hmin : min (a :: t1).length (b :: t2).length = min t1.length t2.length + 1 := by
        simp only [List.length_cons]
        omega
      rw [hmin, List.range_succ_eq_map, List.filterMap_cons, List.filterMap_map]
      have hcomp : ∀ i ∈ List.range (min t1.length t2.length),
          ((fun i =>
              match (a :: t1).getD i none, (b :: t2).getD i none with
              | some u, some v => some (u, v)
              | _, _ => none) ∘ Nat.succ) i
            = (fun i =>
                match t1.getD i none, t2.getD i none with
                | some u, some v => some (u, v)
                | _, _ => none) i :=
        fun i _ => rfl
      rw [List.filterMap_congr hcomp]
      cases a with
      | none => exact ih t2
      | some x =>
        cases b with
        | none => exact ih t2
        | some y => exact congrArg (List.cons (x, y)) (ih t2)

/-- C6. The pairwise correlator restricts both cleaned columns to the row
positions where both values are numeric (a positional inner join), signals
insufficient data exactly when fewer than 2 jointly-valid rows remain, and
when the Pearson correlation is undefined (zero variance in either column)
reports the correlation value 0 with a "no correlation" note instead of
propagating `NaN` or an exception. -/
theorem bivariate_correlation_spec :
    ∀ c1 c2 : List (Option ℚ),
      joinValid c1 c2 = specRestrict c1 c2 ∧
      (bivariate_correlation c1 c2 = BivariateResult.insufficient
          ↔ (joinValid c1 c2).length < 2) ∧
      (2 ≤ (joinValid c1 c2).length →
        (pairsSxx (joinValid c1 c2) = 0 ∨ pairsSyy (joinValid c1 c2) = 0) →
        bivariate_correlation c1 c2
          = BivariateResult.ok
              { correlation := 0
                sample_size := (joinValid c1 c2).length
                interpretation := "No correlation calculated" }) := by
  intro c1 c2
  refine ⟨joinValid_eq_specRestrict c1 c2, ?_, ?_⟩
  · unfold bivariate_correlation
    split_ifs with h
    · exact ⟨fun _ => h, fun _ => rfl⟩
    · exact ⟨fun hc => (nomatch hc), fun hv => absurd hv h⟩
  · intro h2 hvar
    unfold bivariate_correlation
    rw [if_neg (by omega)]
    have hp : pearson (joinValid c1 c2) = none := by
      unfold pearson
      rw [if_pos hvar]
    rw [hp]
    rfl

/-- Witness for C6: the third row is dropped (one side unparseable), two
jointly-valid rows remain, the first column has zero variance, so the result
is correlation 0, sample size 2, "No correlation calculated". -/
theorem bivariate_correlation_spec_witness :
    bivariate_correlation [some (1 : ℚ), some 1, none] [some (2 : ℚ), some 3, some 4]
      = BivariateResult.ok
          { correlation := 0
            sample_size := 2
            interpretation := "No correlation calculated" } := by
  have hj : joinValid [some (1 : ℚ), some 1, none] [some (2 : ℚ), some 3, some 4]
      = [(1, 2), (1, 3)] := by decide
  have hsxx : pairsSxx [((1 : ℚ), 2), (1, 3)] = 0 := by
    unfold pairsSxx pairsMeanX
    norm_num [List.map_cons, List.map_nil, List.sum_cons, List.sum_nil]
  have h := (bivariate_correlation_spec [some (1 : ℚ), some 1, none]
      [some (2 : ℚ), some 3, some 4]).2.2
    (by rw [hj]; norm_num) (by rw [hj]; exact Or.inl hsxx)
  rw [hj] at h
  exact h

/-- C10. For every non-`NaN` coefficient the direction is "negative"
exactly when `r ≤ 0` (zero included) and "positive" exactly when `r > 0`,
the strength band is chosen by `|r|` against 0.1 / 0.3 / 0.5 / 0.7, and the
interpretation string is strength-then-direction. -/
theorem interpret_correlation_spec :
    ∀ r : ℝ,
      (correlationDirection r = "negative" ↔ r ≤ 0) ∧
      (correlationDirection r = "positive" ↔ 0 < r) ∧
      (correlationStrength r = "Negligible" ↔ |r| < 0.1) ∧
      (correlationStrength r = "Weak" ↔ 0.1 ≤ |r| ∧ |r| < 0.3) ∧
      (correlationStrength r = "Moderate" ↔ 0.3 ≤ |r| ∧ |r| < 0.5) ∧
      (correlationStrength r = "Strong" ↔ 0.5 ≤ |r| ∧ |r| < 0.7) ∧
      (correlationStrength r = "Very Strong" ↔ 0.7 ≤ |r|) ∧
      interpret_correlation (some r)
        = correlationStrength r ++ " " ++ correlationDirection r ++ " correlation" := by
  intro r
  refine ⟨?_, ?_, ?_, ?_, ?_, ?_, ?_, rfl⟩
  · unfold correlationDirection
    split_ifs with h
    · exact ⟨fun hc => absurd hc (by decide), fun hv => absurd h (not_lt.mpr hv)⟩
    · exact ⟨fun _ => not_lt.mp h, fun _ => rfl⟩
  · unfold correlationDirection
    split_ifs with h
    · exact ⟨fun _ => h, fun _ => rfl⟩
    · exact ⟨fun hc => absurd hc (by decide), fun hv => absurd hv h⟩
  · unfold correlationStrength
    split_ifs with h1 h2 h3 h4
    · exact ⟨fun _ => h1, fun _ => rfl⟩
    · exact ⟨fun hc => absurd hc (by decide), fun hv => absurd hv h1⟩
    · exact ⟨fun hc => absurd hc (by decide), fun hv => absurd hv h1⟩
    · exact ⟨fun hc => absurd hc (by decide), fun hv => absurd hv h1⟩
    · exact ⟨fun hc => absurd hc (by decide), fun hv => absurd hv h1⟩
  · unfold correlationStrength
    split_ifs with h1 h2 h3 h4
    · exact ⟨fun hc => absurd hc (by decide), fun hv => absurd h1 (not_lt.mpr hv.1)⟩
    · exact ⟨fun _ => ⟨not_lt.mp h1, h2⟩, fun _ => rfl⟩
    · exact ⟨fun hc => absurd hc (by decide), fun hv => absurd hv.2 h2⟩
    · exact ⟨fun hc => absurd hc (by decide), fun hv => absurd hv.2 h2⟩
    · exact ⟨fun hc => absurd hc (by decide), fun hv => absurd hv.2 h2⟩
  · unfold correlationStrength
    split_ifs with h1 h2 h3 h4
    · exact ⟨fun hc => absurd hc (by decide),
        fun hv => absurd h1 (not_lt.mpr (by linarith [hv.1]))⟩
    · exact ⟨fun hc => absurd hc (by decide), fun hv => absurd h2 (not_lt.mpr hv.1)⟩
    · exact ⟨fun _ => ⟨not_lt.mp h2, h3⟩, fun _ => rfl⟩
    · exact ⟨fun hc => absurd hc (by decide), fun hv => absurd hv.2 h3⟩
    · exact ⟨fun hc => absurd hc (by decide), fun hv => absurd hv.2 h3⟩
  · unfold correlationStrength
    split_ifs with h1 h2 h3 h4
    · exact ⟨fun hc => absurd hc (by decide),
        fun hv => absurd h1 (not_lt.mpr (by linarith [hv.1]))⟩
    · exact ⟨fun hc => absurd hc (by decide),
        fun hv => absurd h2 (not_lt.mpr (by linarith [hv.1]))⟩
    · exact ⟨fun hc => absurd hc (by decide), fun hv => absurd h3 (not_lt.mpr hv.1)⟩
    · exact ⟨fun _ => ⟨not_lt.mp h3, h4⟩, fun _ => rfl⟩
    · exact ⟨fun hc => absurd hc (by decide), fun hv => absurd hv.2 h4⟩
  · unfold correlationStrength
    split_ifs with h1 h2 h3 h4
    · exact ⟨fun hc => absurd hc (by decide),
        fun hv => absurd h1 (not_lt.mpr (by linarith))⟩
    · exact ⟨fun hc => absurd hc (by decide),
        fun hv => absurd h2 (not_lt.mpr (by linarith))⟩
    · exact ⟨fun hc => absurd hc (by decide),
        fun hv => absurd h3 (not_lt.mpr (by linarith))⟩
    · exact ⟨fun hc => absurd hc (by decide), fun hv => absurd h4 (not_lt.mpr hv)⟩
    · exact ⟨fun _ => not_lt.mp h4, fun _ => rfl⟩

/-! ### Top correlations (`extract_top_correlations`, source lines 256-272)

The correlation matrix is passed positionally: `m i j` is the matrix entry
for the `i`-th and `j`-th column names, `none` a `NaN` entry.  The Python
default for `n` is 5; the one call site uses `n=5` as well. -/

/-- The `pairs` list: upper-triangle (`i < j`) entries whose correlation is
not `NaN`, labelled `f"{col1} vs {col2}"`, in enumeration order. -/
def upperPairs (cols : List String) (m : ℕ → ℕ → Option ℚ) : List (String × ℚ) :=
  (List.range cols.length).flatMap (fun i =>
    (List.range cols.length).filterMap (fun j =>
      if i < j then
        (m i j).map (fun r => (cols.getD i "" ++ " vs " ++ cols.getD j "", r))
      else none))

/-- `pairs.sort(key=lambda x: abs(x['correlation']), reverse=True)` followed
by `pairs[:n]`.  Python's sort is stable; `insertionSort` with
"keep the left element when `|b.2| ≤ |a.2|`" realizes the same stable
descending order. -/
def extract_top_correlations (cols : List String) (m : ℕ → ℕ → Option ℚ) (n : ℕ) :
    List (String × ℚ) :=
  ((upperPairs cols m).insertionSort (fun a b => |b.2| ≤ |a.2|)).take n

/-- C7. The top-N ranking is the first `n` elements of a permutation of the
upper-triangle, non-`NaN` pair list sorted by absolute correlation
descending; its length is `min n` (number of valid pairs); and every
returned pair comes from a matrix entry with `i < j` (no self pairs, no
duplicate unordered pairs) whose correlation is defined. -/
theorem extract_top_correlations_spec :
    ∀ (cols : List String) (m : ℕ → ℕ → Option ℚ) (n : ℕ),
      (∃ sortedAll : List (String × ℚ),
        sortedAll.Perm (upperPairs cols m) ∧
        sortedAll.Sorted (fun a b => |b.2| ≤ |a.2|) ∧
        extract_top_correlations cols m n = sortedAll.take n) ∧
      (extract_top_correlations cols m n).length = min n (upperPairs cols m).length ∧
      ∀ p ∈ extract_top_correlations cols m n,
        ∃ i j, i < j ∧ j < cols.length ∧ m i j = some p.2 ∧
          p.1 = cols.getD i "" ++ " vs " ++ cols.getD j "" := by
  intro cols m n
  haveI hTot : IsTotal (String × ℚ) (fun a b => |b.2| ≤ |a.2|) :=
    ⟨fun a b => le_total _ _⟩
  haveI hTrans : IsTrans (String × ℚ) (fun a b => |b.2| ≤ |a.2|) :=
    ⟨fun a b c hab hbc => le_trans hbc hab⟩
  have hperm := List.perm_insertionSort
    (fun a b : String × ℚ => |b.2| ≤ |a.2|) (upperPairs cols m)
  have hsorted := List.sorted_insertionSort
    (fun a b : String × ℚ => |b.2| ≤ |a.2|) (upperPairs cols m)
  refine ⟨⟨_, hperm, hsorted, rfl⟩, ?_, ?_⟩
  · unfold extract_top_correlations
    rw [List.length_take, List.length_insertionSort]
  · intro p hp
    have hp2 : p ∈ upperPairs cols m :=
      hperm.mem_iff.mp (List.mem_of_mem_take hp)
    unfold upperPairs at hp2
    rw [List.mem_flatMap] at hp2
    obtain ⟨i, hi, hp3⟩ := hp2
    rw [List.mem_filterMap] at hp3
    obtain ⟨j, hj, hp4⟩ := hp3
    rw [List.mem_range] at hi hj
    by_cases hij : i < j
    · rw [if_pos hij] at hp4
      cases hm : m i j with
      | none =>
        rw [hm] at hp4
        simp at hp4
      | some r =>
        rw [hm, Option.map_some'] at hp4
        cases Option.some.inj hp4
        exact ⟨i, j, hij, hj, by rw [hm], rfl⟩
    · rw [if_neg hij] at hp4
      exact (nomatch hp4)

/-- Witness for C7 on a 3-column matrix with one `NaN` upper entry: the pair
("b vs c", −3/4) is ranked first and indeed comes from an upper-triangle
entry. -/
theorem extract_top_correlations_spec_witness :
    ("b vs c", (-3 : ℚ))
        ∈ extract_top_correlations ["a", "b", "c"]
            (fun a b : ℕ =>
              if a = 0 ∧ b = 1 then some (1 : ℚ)
              else if a = 1 ∧ b = 2 then some (-3 : ℚ) else none) 5 ∧
    ∃ i j, i < j ∧ j < (["a", "b", "c"] : List String).length ∧
      (fun a b : ℕ =>
        if a = 0 ∧ b = 1 then some (1 : ℚ)
        else if a = 1 ∧ b = 2 then some (-3 : ℚ) else none) i j
        = some (-3 : ℚ) := by
  have hmem : ("b vs c", (-3 : ℚ))
      ∈ extract_top_correlations ["a", "b", "c"]
          (fun a b : ℕ =>
            if a = 0 ∧ b = 1 then some (1 : ℚ)
            else if a = 1 ∧ b = 2 then some (-3 : ℚ) else none) 5 := by decide
  obtain ⟨i, j, hij, hj, hm, hname⟩ :=
    (extract_top_correlations_spec ["a", "b", "c"]
      (fun a b : ℕ =>
        if a = 0 ∧ b = 1 then some (1 : ℚ)
        else if a = 1 ∧ b = 2 then some (-3 : ℚ) else none) 5).2.2
      ("b vs c", (-3 : ℚ)) hmem
  exact ⟨hmem, i, j, hij, hj, hm⟩

end BatchAnalytics
